import Mathlib

/-!
Verification development for the arbot cross-venue arbitrage engine.

Prices, sizes, fees and timestamps are embedded as rational numbers
standing for the Python floats of the source; the arithmetic of the
source is translated operation by operation. Stateful methods become
functions from an explicit state to a new state. Calls to the wall
clock become an explicit `now` parameter, and the global random number
generator of the simulator becomes an explicit stream of draws in
the unit interval. Database writes and logging are effect-free in the
model and are omitted.
-/

namespace Arbot

/-- Modelled from the spec: a top-of-book quote. The defining file
src/arbot/exchanges/base.py is not present under src/; the fields follow
section 3 of the spec (entity Quote) and every use in strategy.py. -/
structure Ticker where
  symbol : String
  bid : ℚ
  ask : ℚ
  bid_size : ℚ
  ask_size : ℚ
  timestamp : ℚ
deriving DecidableEq

/-- Embedding of strategy.ExchangeData (strategy.py lines 31 to 37): the
entry of the last-quote table for one venue and one symbol. The fees
dictionary of the source holds the maker and taker rates read from the
per-exchange config. -/
structure ExchangeData where
  exchange_name : String
  ticker : Ticker
  last_updated : ℚ
  maker_fee : ℚ
  taker_fee : ℚ
deriving DecidableEq

/-- Embedding of strategy.ArbitrageSignal (strategy.py lines 16 to 28). -/
structure ArbitrageSignal where
  symbol : String
  buy_exchange : String
  sell_exchange : String
  buy_price : ℚ
  sell_price : ℚ
  profit : ℚ
  profit_percent : ℚ
  buy_size : ℚ
  sell_size : ℚ
  timestamp : ℚ
  confidence : ℚ
deriving DecidableEq

/-- The arbitrage section of the configuration (config.py lines 41 to 51),
restricted to the fields the detection engine and the executors read.
exchange_taker_fees is the per-exchange taker fee of the venue configs,
as read by ArbitrageStrategy.get_trading_fees. -/
structure ArbitrageConfig where
  min_profit_threshold : ℚ
  max_position_size : ℚ
  max_trades_per_hour : ℕ
  trade_amount_usd : ℚ
  slippage_tolerance : ℚ
  max_spread_age_seconds : ℚ
  max_spread_threshold : ℚ
  symbols : List String
  exchange_taker_fees : List (String × ℚ)
  enabled_exchanges : List String
deriving DecidableEq

/-- Embedding of ArbitrageStrategy._calculate_arbitrage (strategy.py lines
196 to 254). The taker fees, which the source reads back from the
per-exchange config via get_trading_fees, are the taker_fee fields stored
in the two table entries, which _on_ticker_update filled from the same
config lookup. The pre-slippage profit_percent of source line 225 is not
used by the returned signal and is not modelled. `now` stands for
time.time(). -/
def calculate_arbitrage (cfg : ArbitrageConfig) (buy_ex sell_ex : ExchangeData)
    (symbol : String) (now : ℚ) : Option ArbitrageSignal :=
  let buy_price := buy_ex.ticker.ask
  let sell_price := sell_ex.ticker.bid
  let buy_size := buy_ex.ticker.ask_size
  let sell_size := sell_ex.ticker.bid_size
  let buy_fee := buy_ex.taker_fee
  let sell_fee := sell_ex.taker_fee
  let gross_profit := sell_price - buy_price
  let fee_cost := buy_price * buy_fee + sell_price * sell_fee
  let net_profit := gross_profit - fee_cost
  let slippage_cost := buy_price * cfg.slippage_tolerance
  let adjusted_profit := net_profit - slippage_cost
  let adjusted_profit_percent := if 0 < buy_price then adjusted_profit / buy_price else 0
  if adjusted_profit_percent ≤ 0 then none
  else
    let size_confidence := min (min buy_size sell_size / 1000) 1
    let age_confidence :=
      max 0 (1 - (now - max buy_ex.last_updated sell_ex.last_updated)
                  / cfg.max_spread_age_seconds)
    let confidence := (size_confidence + age_confidence) / 2
    some
      { symbol := symbol
        buy_exchange := buy_ex.exchange_name
        sell_exchange := sell_ex.exchange_name
        buy_price := buy_price
        sell_price := sell_price
        profit := adjusted_profit
        profit_percent := adjusted_profit_percent
        buy_size := buy_size
        sell_size := sell_size
        timestamp := now
        confidence := confidence }

/-- The net-profit formula stated by the spec (section 4.3): gross minus
fees minus slippage, written from the words of the spec for comparison
with the source embedding. -/
def specNetProfit (cfg : ArbitrageConfig) (a b : ExchangeData) : ℚ :=
  (b.ticker.bid - a.ticker.ask)
    - (a.ticker.ask * a.taker_fee + b.ticker.bid * b.taker_fee)
    - a.ticker.ask * cfg.slippage_tolerance

/-- The profit-fraction formula stated by the spec (section 4.3): net
profit over the buy price, zero when the buy price is not positive. -/
def specProfitFraction (cfg : ArbitrageConfig) (a b : ExchangeData) : ℚ :=
  if 0 < a.ticker.ask then specNetProfit cfg a b / a.ticker.ask else 0

/-- The mutable state of ArbitrageStrategy that the signal-emission path
reads and writes (strategy.py lines 44 to 52): the ring buffer of the
last 100 signals, the cooldown table keyed by
symbol/buy-exchange/sell-exchange, the signal counter and the run flag.
The cooldown table is an association list whose most recent binding for a
key comes first, matching assignment into a Python dict. -/
structure StrategyState where
  recent_signals : List ArbitrageSignal
  trade_cooldown : List ((String × String × String) × ℚ)
  signals_generated : ℕ
  is_running : Bool
deriving DecidableEq

/-- Lookup of the most recent cooldown entry for a key, the reading of
`cooldown_key in self.trade_cooldown` followed by the indexed access. -/
def lookup_cooldown (cd : List ((String × String × String) × ℚ))
    (key : String × String × String) : Option ℚ :=
  (cd.find? (fun p => p.1 == key)).map (fun p => p.2)

/-- Appending to a collections.deque with a maxlen bound: the element goes
on the right and elements fall off the left once the bound is exceeded. -/
def deque_append (maxlen : ℕ) (xs : List ArbitrageSignal) (x : ArbitrageSignal) :
    List ArbitrageSignal :=
  let ys := xs ++ [x]
  ys.drop (ys.length - maxlen)

/-- Embedding of ArbitrageStrategy._handle_arbitrage_opportunity
(strategy.py lines 256 to 305). Returns the new state and whether the
signal was emitted to the callbacks. The database write of the
opportunity record has no effect on this state and is omitted. -/
def handle_arbitrage_opportunity (cfg : ArbitrageConfig) (st : StrategyState)
    (sig : ArbitrageSignal) (now : ℚ) : StrategyState × Bool :=
  let key := (sig.symbol, sig.buy_exchange, sig.sell_exchange)
  let blocked :=
    match lookup_cooldown st.trade_cooldown key with
    | some t => decide (now - t < 60)
    | none => false
  if blocked then (st, false)
  else
    let recent_trades := st.recent_signals.filter (fun s => decide (now - s.timestamp < 3600))
    if cfg.max_trades_per_hour ≤ recent_trades.length then (st, false)
    else
      ({ recent_signals := deque_append 100 st.recent_signals sig
         trade_cooldown := (key, now) :: st.trade_cooldown
         signals_generated := st.signals_generated + 1
         is_running := st.is_running }, true)

/-- The candidate enumeration of _check_arbitrage_opportunities
(strategy.py lines 170 to 182): for every i < j both directions are
tried, in the order of the two nested loops. -/
def ordered_pairs : List ExchangeData → List (ExchangeData × ExchangeData)
  | [] => []
  | e :: rest => rest.flatMap (fun f => [(e, f), (f, e)]) ++ ordered_pairs rest

/-- The processing loop at the end of _check_arbitrage_opportunities
(strategy.py lines 188 to 194) applied to the candidates that pass the
threshold window: each surviving candidate is handed to
_handle_arbitrage_opportunity in order, threading the state. Returns the
final state and the emitted signals in order. -/
def process_opportunities (cfg : ArbitrageConfig) (st : StrategyState) (now : ℚ) :
    List ArbitrageSignal → StrategyState × List ArbitrageSignal
  | [] => (st, [])
  | o :: rest =>
    let r1 := handle_arbitrage_opportunity cfg st o now
    let r2 := process_opportunities cfg r1.1 now rest
    (r2.1, (if r1.2 then [o] else []) ++ r2.2)

/-- Embedding of ArbitrageStrategy._check_arbitrage_opportunities
(strategy.py lines 145 to 194) for one symbol: keep the table entries
fresh within max_spread_age_seconds, require at least two, enumerate both
directions of every pair, keep the candidates whose profit fraction lies
in the threshold window, and hand them to the opportunity handler. The
candidates the window rejects do not touch the state, so filtering before
the handler loop matches the inline conditional of the source. -/
def check_arbitrage_opportunities (cfg : ArbitrageConfig) (st : StrategyState)
    (entries : List ExchangeData) (symbol : String) (now : ℚ) :
    StrategyState × List ArbitrageSignal :=
  if st.is_running = false then (st, [])
  else
    let fresh := entries.filter
      (fun e => decide (now - e.last_updated ≤ cfg.max_spread_age_seconds))
    if fresh.length < 2 then (st, [])
    else
      let opportunities := (ordered_pairs fresh).filterMap
        (fun p => calculate_arbitrage cfg p.1 p.2 symbol now)
      let passing := opportunities.filter
        (fun o => decide (cfg.min_profit_threshold ≤ o.profit_percent) &&
                  decide (o.profit_percent ≤ cfg.max_spread_threshold))
      process_opportunities cfg st now passing

/-- The strategy state right after construction and start:
empty signal buffer, empty cooldown table, run flag set. -/
def initial_strategy_state : StrategyState :=
  { recent_signals := []
    trade_cooldown := []
    signals_generated := 0
    is_running := true }

/-! Concrete inputs for witnesses: a configuration with zero fees and
zero slippage and two venues quoting a profitable dislocation. -/

/-- A small concrete configuration used by witnesses. -/
def cfgW : ArbitrageConfig :=
  { min_profit_threshold := 1/1000
    max_position_size := 1000
    max_trades_per_hour := 50
    trade_amount_usd := 100
    slippage_tolerance := 0
    max_spread_age_seconds := 5
    max_spread_threshold := 2
    symbols := ["BTCUSDT"]
    exchange_taker_fees := [("binance", 0), ("bybit", 0)]
    enabled_exchanges := ["binance", "bybit"] }

/-- Concrete table entry: binance quoting bid 99 ask 100. -/
def exW_a : ExchangeData :=
  { exchange_name := "binance"
    ticker := { symbol := "BTCUSDT", bid := 99, ask := 100,
                bid_size := 500, ask_size := 500, timestamp := 0 }
    last_updated := 0
    maker_fee := 0
    taker_fee := 0 }

/-- Concrete table entry: bybit quoting bid 102 ask 103. -/
def exW_b : ExchangeData :=
  { exchange_name := "bybit"
    ticker := { symbol := "BTCUSDT", bid := 102, ask := 103,
                bid_size := 800, ask_size := 800, timestamp := 0 }
    last_updated := 0
    maker_fee := 0
    taker_fee := 0 }

/-- A trace of calls to _handle_arbitrage_opportunity: each element is
the candidate signal handed to the handler together with the clock value
of that call. The state is threaded through the calls and the emitted
signals are collected in order. Every execution of the detection engine
funnels its emissions through this handler, so a trace of handler calls
covers every execution trace of the engine. -/
def run_handles (cfg : ArbitrageConfig) (st : StrategyState) :
    List (ArbitrageSignal × ℚ) → StrategyState × List ArbitrageSignal
  | [] => (st, [])
  | (sig, t) :: rest =>
    let r1 := handle_arbitrage_opportunity cfg st sig t
    let r2 := run_handles cfg r1.1 rest
    (r2.1, (if r1.2 then [sig] else []) ++ r2.2)

/-- The number of signals of a list whose timestamp lies in the trailing
one-hour window ending at t, the window of the source rate check. -/
def window_count (sigs : List ArbitrageSignal) (t : ℚ) : ℕ :=
  sigs.countP (fun s => decide (t - 3600 < s.timestamp) && decide (s.timestamp ≤ t))

/-- Invariant tying the strategy state to the list E of signals emitted
so far, at clock value t0: the signal buffer is a suffix of E whose
complement is older than one hour, E is sorted by timestamp and nothing
in it is newer than t0, the buffer respects its ring bound, and every
trailing one-hour window of E holds at most the configured cap. -/
def RateInv (cfg : ArbitrageConfig) (st : StrategyState) (E : List ArbitrageSignal)
    (t0 : ℚ) : Prop :=
  (∃ P, E = P ++ st.recent_signals ∧ ∀ s ∈ P, s.timestamp ≤ t0 - 3600) ∧
  E.Pairwise (fun a b => a.timestamp ≤ b.timestamp) ∧
  (∀ s ∈ E, s.timestamp ≤ t0) ∧
  st.recent_signals.length ≤ 100 ∧
  (∀ T, window_count E T ≤ cfg.max_trades_per_hour)

/-- Signal number i of the counterexample trace for the hourly rate
limit: a distinct symbol per signal so that no cooldown interferes. -/
def mkSigC6 (i : ℕ) : ArbitrageSignal :=
  { symbol := toString i
    buy_exchange := "binance"
    sell_exchange := "bybit"
    buy_price := 100
    sell_price := 102
    profit := 2
    profit_percent := 1/50
    buy_size := 500
    sell_size := 800
    timestamp := (i : ℚ)
    confidence := 1 }

/-- 102 handler calls one second apart, all inside one trailing hour. -/
def traceC6 : List (ArbitrageSignal × ℚ) :=
  (List.range 102).map (fun i => (mkSigC6 i, (i : ℚ)))

/-- cfgW with the hourly cap raised above the size of the signal ring
buffer. -/
def cfgC6 : ArbitrageConfig :=
  { cfgW with max_trades_per_hour := 101 }

/-- Modelled from the spec: the order sides of
src/arbot/exchanges/base.py, which is not present under src/; the
constructors follow section 3 of the spec and every use in simulator.py
and trader.py. -/
inductive OrderSide
  | BUY
  | SELL
deriving DecidableEq

/-- Modelled from the spec: the order types of src/arbot/exchanges/base.py. -/
inductive OrderType
  | MARKET
  | LIMIT
deriving DecidableEq

/-- Modelled from the spec: the order statuses of
src/arbot/exchanges/base.py; NEW, PARTIALLY_FILLED, FILLED and REJECTED
appear in simulator.py and trader.py, CANCELED is the remaining terminal
status of section 3 of the spec. -/
inductive OrderStatus
  | NEW
  | PARTIALLY_FILLED
  | FILLED
  | CANCELED
  | REJECTED
deriving DecidableEq

/-- Embedding of trader.TradeStatus (trader.py lines 17 to 22). -/
inductive TradeStatus
  | PENDING
  | PARTIALLY_FILLED
  | COMPLETED
  | FAILED
  | CANCELLED
deriving DecidableEq

/-- Substring test over the character list: some suffix starts with the
pattern. Implements the Python `in` operator on strings. -/
def contains_sub (pat : List Char) : List Char → Bool
  | [] => pat.isPrefixOf []
  | c :: rest => pat.isPrefixOf (c :: rest) || contains_sub pat rest

/-- Removal of every non-overlapping occurrence of a pattern, scanning
left to right: Python str.replace(pat, empty string). The fuel argument
bounds the scan by the string length; each step consumes at least one
character, so fuel equal to the length is exact. -/
def remove_sub (pat : List Char) : ℕ → List Char → List Char
  | _, [] => []
  | 0, s => s
  | fuel + 1, c :: rest =>
    if pat ≠ [] ∧ pat.isPrefixOf (c :: rest) then
      remove_sub pat fuel ((c :: rest).drop pat.length)
    else c :: remove_sub pat fuel rest

/-- The quote asset chosen by the source expressions of the form
`'USDT' if 'USDT' in symbol else 'USDC'`. -/
def quote_asset (symbol : String) : String :=
  if contains_sub "USDT".data symbol.data then "USDT" else "USDC"

/-- The base asset obtained by the source expressions of the form
`symbol.replace('USDT', '').replace('USDC', '')`. -/
def base_asset (symbol : String) : String :=
  let step1 := remove_sub "USDT".data symbol.data.length symbol.data
  String.mk (remove_sub "USDC".data step1.length step1)

/-- Embedding of simulator.SimulatedOrder (simulator.py lines 17 to 31).
The uuid4 order id of the source is modelled by a sequence number; the
id is only ever compared for identity. -/
structure SimulatedOrder where
  order_id : ℕ
  symbol : String
  side : OrderSide
  order_type : OrderType
  quantity : ℚ
  price : ℚ
  status : OrderStatus
  filled_quantity : ℚ
  average_price : Option ℚ
  timestamp : ℚ
  fill_time : Option ℚ
  exchange : String
deriving DecidableEq

/-- Embedding of simulator.SimulatedBalance (simulator.py lines 33 to 41). -/
structure SimulatedBalance where
  asset : String
  free : ℚ
  locked : ℚ
deriving DecidableEq

/-- The total property of SimulatedBalance. -/
def SimulatedBalance.total (b : SimulatedBalance) : ℚ := b.free + b.locked

/-- Embedding of simulator.SimulatedTrade (simulator.py lines 44 to 54). -/
structure SimulatedTrade where
  id : ℕ
  signal : ArbitrageSignal
  buy_order : Option SimulatedOrder
  sell_order : Option SimulatedOrder
  status : String
  start_time : ℚ
  end_time : Option ℚ
  actual_profit : ℚ
  fees_paid : ℚ
deriving DecidableEq

/-- State of TradingSimulator (simulator.py lines 57 to 94): balances
keyed by exchange and asset, the order map in insertion order, active
and completed trades, counters, statistics, and the tunable simulation
parameters set in the constructor (fill delay 2 seconds, 10 percent
chance of a 70 percent fill, 5 percent order rejection). order_seq
replaces uuid4 for fresh order ids. -/
structure SimState where
  balances : List ((String × String) × SimulatedBalance)
  orders : List SimulatedOrder
  active_trades : List SimulatedTrade
  completed_trades : List SimulatedTrade
  trade_counter : ℕ
  order_seq : ℕ
  is_running : Bool
  total_trades : ℕ
  successful_trades : ℕ
  failed_trades : ℕ
  total_profit : ℚ
  total_fees : ℚ
  total_volume : ℚ
  max_drawdown : ℚ
  current_drawdown : ℚ
  initial_portfolio_value : ℚ
  slippage_percent : ℚ
  fill_delay_seconds : ℚ
  pfill_probability : ℚ
  order_reject_probability : ℚ
deriving DecidableEq

/-- Balance lookup in the simulator portfolio. A key the source map does
not hold reads as a zero balance here; on the modelled paths the source
raises KeyError inside a swallowed try block and refuses, which
coincides with the refusal a zero balance produces, and the theorems
below only instantiate keys the map holds. -/
def get_balance (bal : List ((String × String) × SimulatedBalance))
    (exchange asset : String) : SimulatedBalance :=
  match bal.find? (fun p => p.1 == (exchange, asset)) with
  | some p => p.2
  | none => { asset := asset, free := 0, locked := 0 }

/-- Balance update in place, inserting at the end when the key is
absent, matching assignment into the nested Python dicts. -/
def set_balance (bal : List ((String × String) × SimulatedBalance))
    (exchange asset : String) (b : SimulatedBalance) :
    List ((String × String) × SimulatedBalance) :=
  if (bal.find? (fun p => p.1 == (exchange, asset))).isSome then
    bal.map (fun p => if p.1 == (exchange, asset) then ((exchange, asset), b) else p)
  else
    bal ++ [((exchange, asset), b)]

/-- The hardcoded per-venue taker fees of the simulator (simulator.py
lines 69 to 74); every listed venue has taker fee 0.001. Venues outside
the table raise KeyError in the source inside swallowed try blocks; the
embedding is only used at listed venues. -/
def sim_taker_fee (exchange : String) : ℚ :=
  match [("binance", (1 : ℚ)/1000), ("bybit", 1/1000), ("okx", 1/1000),
         ("bitget", 1/1000)].find? (fun p => p.1 == exchange) with
  | some p => p.2
  | none => 0

/-- Embedding of TradingSimulator._calculate_trade_size (simulator.py
lines 479 to 499). -/
def sim_calculate_trade_size (cfg : ArbitrageConfig) (st : SimState)
    (sig : ArbitrageSignal) : ℚ :=
  let trade_size := cfg.trade_amount_usd / sig.buy_price
  let buy_balance := (get_balance st.balances sig.buy_exchange (quote_asset sig.symbol)).free
  let max_buy_size := buy_balance / sig.buy_price
  let sell_balance := (get_balance st.balances sig.sell_exchange (base_asset sig.symbol)).free
  min trade_size (min max_buy_size (min sell_balance (min sig.buy_size sig.sell_size)))

/-- Embedding of TradingSimulator._can_execute_trade (simulator.py lines
501 to 509): the minimum-profit check and a positive trade size, and
nothing else. -/
def sim_can_execute_trade (cfg : ArbitrageConfig) (st : SimState)
    (sig : ArbitrageSignal) : Bool :=
  if sig.profit_percent < cfg.min_profit_threshold then false
  else decide (0 < sim_calculate_trade_size cfg st sig)

/-- Embedding of TradingSimulator._should_reject_order (simulator.py
lines 511 to 514) applied to one draw of random.random. -/
def should_reject_order (st : SimState) (u : ℚ) : Bool :=
  decide (u < st.order_reject_probability)

/-- One draw from the modelled random stream; random.random always
yields a value in the unit interval, and an exhausted model stream
yields 1. -/
def next_draw : List ℚ → ℚ × List ℚ
  | [] => (1, [])
  | u :: rest => (u, rest)

/-- The NEW order _place_simulated_order constructs (simulator.py lines
219 to 229). -/
def mk_sim_order (st : SimState) (exchange symbol : String) (side : OrderSide)
    (order_type : OrderType) (quantity price now : ℚ) : SimulatedOrder :=
  { order_id := st.order_seq
    symbol := symbol
    side := side
    order_type := order_type
    quantity := quantity
    price := price
    status := OrderStatus.NEW
    filled_quantity := 0
    average_price := none
    timestamp := now
    fill_time := none
    exchange := exchange }

/-- Embedding of TradingSimulator._place_simulated_order (simulator.py
lines 210 to 234): reject by the drawn probability, otherwise create a
NEW order and append it to the order map. -/
def place_simulated_order (st : SimState) (exchange symbol : String)
    (side : OrderSide) (order_type : OrderType) (quantity price now u : ℚ) :
    SimState × Option SimulatedOrder :=
  if should_reject_order st u then (st, none)
  else
    let order := mk_sim_order st exchange symbol side order_type quantity price now
    ({ st with orders := st.orders ++ [order], order_seq := st.order_seq + 1 }, some order)

/-- Embedding of TradingSimulator._reserve_balances (simulator.py lines
236 to 267), including the partial mutation of the source: when the buy
reservation succeeds and the sell balance is short, the function returns
False with the buy reservation left in place. -/
def reserve_balances (st : SimState) (trade : SimulatedTrade) : SimState × Bool :=
  let afterBuy : SimState × Bool :=
    match trade.buy_order with
    | none => (st, true)
    | some bo =>
      let qa := quote_asset trade.signal.symbol
      let required := bo.quantity * bo.price
      let b := get_balance st.balances trade.signal.buy_exchange qa
      if b.free < required then (st, false)
      else
        let nb := { b with free := b.free - required, locked := b.locked + required }
        ({ st with
            balances := set_balance st.balances trade.signal.buy_exchange qa nb }, true)
  if afterBuy.2 = false then (afterBuy.1, false)
  else
    match trade.sell_order with
    | none => (afterBuy.1, true)
    | some so =>
      let ba := base_asset trade.signal.symbol
      let required := so.quantity
      let b := get_balance afterBuy.1.balances trade.signal.sell_exchange ba
      if b.free < required then (afterBuy.1, false)
      else
        let nb := { b with free := b.free - required, locked := b.locked + required }
        ({ afterBuy.1 with
            balances := set_balance afterBuy.1.balances trade.signal.sell_exchange ba nb },
         true)

/-- Embedding of TradingSimulator.execute_arbitrage (simulator.py lines
144 to 208). The two placements draw from the random stream in order;
both legs are attempted even when the first is rejected, exactly as in
the source, and the call aborts afterwards when either leg is missing or
the reservation fails, leaving any placed order in the order map. -/
def sim_execute_arbitrage (cfg : ArbitrageConfig) (st : SimState)
    (sig : ArbitrageSignal) (now : ℚ) (rng : List ℚ) :
    SimState × Bool × List ℚ :=
  if st.is_running = false then (st, false, rng)
  else if sim_can_execute_trade cfg st sig = false then (st, false, rng)
  else
    let st1 := { st with trade_counter := st.trade_counter + 1 }
    let trade_size := sim_calculate_trade_size cfg st1 sig
    if trade_size ≤ 0 then (st1, false, rng)
    else
      let d1 := next_draw rng
      let r1 := place_simulated_order st1 sig.buy_exchange sig.symbol OrderSide.BUY
        OrderType.MARKET trade_size sig.buy_price now d1.1
      let d2 := next_draw d1.2
      let r2 := place_simulated_order r1.1 sig.sell_exchange sig.symbol OrderSide.SELL
        OrderType.MARKET trade_size sig.sell_price now d2.1
      match r1.2, r2.2 with
      | some bo, some so =>
        let trade : SimulatedTrade :=
          { id := st1.trade_counter
            signal := sig
            buy_order := some bo
            sell_order := some so
            status := "pending"
            start_time := now
            end_time := none
            actual_profit := 0
            fees_paid := 0 }
        let r3 := reserve_balances r2.1 trade
        if r3.2 = false then (r3.1, false, d2.2)
        else
          let st4 := { r3.1 with
            active_trades := r3.1.active_trades ++ [trade],
            total_trades := r3.1.total_trades + 1 }
          (st4, true, d2.2)
      | _, _ => (r2.1, false, d2.2)

/-- Embedding of TradingSimulator._update_balances_after_fill
(simulator.py lines 352 to 397): unlock the filled notional rather than
the reserved one, credit the counter asset, and charge the taker fee. -/
def update_balances_after_fill (st : SimState) (o : SimulatedOrder) : SimState :=
  let avg := o.average_price.getD 0
  if o.side = OrderSide.BUY then
    let qa := quote_asset o.symbol
    let ba := base_asset o.symbol
    let cost := o.filled_quantity * avg
    let fee := cost * sim_taker_fee o.exchange
    let bq := get_balance st.balances o.exchange qa
    let bal1 := set_balance st.balances o.exchange qa { bq with locked := bq.locked - cost }
    let bb := get_balance bal1 o.exchange ba
    let bal2 := set_balance bal1 o.exchange ba { bb with free := bb.free + o.filled_quantity }
    let bq2 := get_balance bal2 o.exchange qa
    let bal3 := set_balance bal2 o.exchange qa { bq2 with free := bq2.free - fee }
    { st with balances := bal3, total_fees := st.total_fees + fee }
  else
    let ba := base_asset o.symbol
    let qa := quote_asset o.symbol
    let proceeds := o.filled_quantity * avg
    let fee := proceeds * sim_taker_fee o.exchange
    let bb := get_balance st.balances o.exchange ba
    let bal1 := set_balance st.balances o.exchange ba
      { bb with locked := bb.locked - o.filled_quantity }
    let bq := get_balance bal1 o.exchange qa
    let bal2 := set_balance bal1 o.exchange qa { bq with free := bq.free + (proceeds - fee) }
    { st with balances := bal2, total_fees := st.total_fees + fee }

/-- Embedding of TradingSimulator._fill_order (simulator.py lines 319 to
350): adverse slippage on the price, a 70 percent fill when the drawn
value falls below the configured probability, then the balance update.
The updated order replaces its entry of the order map, modelling the
in-place mutation of the shared Python object. -/
def fill_order (st : SimState) (o : SimulatedOrder) (now u : ℚ) : SimState :=
  let fill_price := if o.side = OrderSide.BUY then o.price * (1 + st.slippage_percent)
    else o.price * (1 - st.slippage_percent)
  let is_part := decide (u < st.pfill_probability)
  let o' := { o with
    filled_quantity := if is_part then o.quantity * (7/10) else o.quantity
    status := if is_part then OrderStatus.PARTIALLY_FILLED else OrderStatus.FILLED
    average_price := some fill_price
    fill_time := some now }
  let st1 := { st with
    orders := st.orders.map (fun q => if q.order_id == o.order_id then o' else q) }
  update_balances_after_fill st1 o'

/-- The order-processing sweep of TradingSimulator._process_orders
(simulator.py lines 269 to 307) restricted to one step past the fill
delay: fill the first order still in NEW status. -/
def fill_first_order (st : SimState) (now u : ℚ) : SimState :=
  match st.orders.find? (fun o => o.status == OrderStatus.NEW) with
  | some o => fill_order st o now u
  | none => st

/-- The trade objects of the source alias the order objects mutated by
_fill_order; the embedding reads the current order map instead. -/
def refresh_trade (st : SimState) (trade : SimulatedTrade) : SimulatedTrade :=
  { trade with
    buy_order := match trade.buy_order with
      | some bo =>
        match st.orders.find? (fun q => q.order_id == bo.order_id) with
        | some q => some q
        | none => some bo
      | none => none
    sell_order := match trade.sell_order with
      | some so =>
        match st.orders.find? (fun q => q.order_id == so.order_id) with
        | some q => some q
        | none => some so
      | none => none }

/-- Embedding of TradingSimulator._is_trade_completed (simulator.py
lines 399 to 406). -/
def is_trade_completed (trade : SimulatedTrade) : Bool :=
  (match trade.buy_order with
   | some bo => bo.status == OrderStatus.FILLED || bo.status == OrderStatus.PARTIALLY_FILLED
   | none => false) &&
  (match trade.sell_order with
   | some so => so.status == OrderStatus.FILLED || so.status == OrderStatus.PARTIALLY_FILLED
   | none => false)

/-- Embedding of TradingSimulator._calculate_portfolio_value
(simulator.py lines 459 to 477) over the balance map. -/
def calculate_portfolio_value (bal : List ((String × String) × SimulatedBalance)) : ℚ :=
  bal.foldl (fun acc p =>
    let asset := p.1.2
    let total := p.2.free + p.2.locked
    if asset == "USDT" || asset == "USDC" then acc + total
    else if asset == "BTC" then acc + total * 50000
    else if asset == "ETH" then acc + total * 3000
    else acc + total * 1) 0

/-- Embedding of TradingSimulator._update_drawdown (simulator.py lines
451 to 457). -/
def update_drawdown (st : SimState) : SimState :=
  let current_value := calculate_portfolio_value st.balances
  let drawdown :=
    max 0 ((st.initial_portfolio_value - current_value) / st.initial_portfolio_value * 100)
  { st with current_drawdown := drawdown, max_drawdown := max st.max_drawdown drawdown }

/-- Embedding of TradingSimulator._complete_trade (simulator.py lines
408 to 449): mark completed, recompute fees from the filled notionals
and the taker table, record realized profit, update the statistics and
the drawdown. Returns the new state and the updated trade. -/
def complete_trade (st : SimState) (trade : SimulatedTrade) (now : ℚ) :
    SimState × SimulatedTrade :=
  let trade1 := { trade with status := "completed", end_time := some now }
  match trade1.buy_order, trade1.sell_order with
  | some bo, some so =>
    let buy_cost := bo.filled_quantity * (bo.average_price.getD 0)
    let sell_proceeds := so.filled_quantity * (so.average_price.getD 0)
    let buy_fee := buy_cost * sim_taker_fee trade.signal.buy_exchange
    let sell_fee := sell_proceeds * sim_taker_fee trade.signal.sell_exchange
    let trade2 := { trade1 with
      fees_paid := buy_fee + sell_fee
      actual_profit := sell_proceeds - buy_cost - (buy_fee + sell_fee) }
    let st1 := { st with
      total_profit := st.total_profit + trade2.actual_profit
      total_volume := st.total_volume + buy_cost
      successful_trades := if 0 < trade2.actual_profit then st.successful_trades + 1
        else st.successful_trades
      failed_trades := if 0 < trade2.actual_profit then st.failed_trades
        else st.failed_trades + 1 }
    (update_drawdown st1, trade2)
  | _, _ => (update_drawdown st, trade1)

/-- The completed-trade sweep of _process_orders (simulator.py lines 281
to 290) for the first active trade. -/
def complete_first_trade (st : SimState) (now : ℚ) : SimState :=
  match st.active_trades with
  | t :: rest =>
    let t' := refresh_trade st t
    if is_trade_completed t' then
      let r := complete_trade st t' now
      { r.1 with active_trades := rest, completed_trades := r.1.completed_trades ++ [r.2] }
    else st
  | [] => st

/-- Modelled from the spec: an exchange order as returned by the venue
adapters of src/arbot/exchanges/base.py, which is not present under
src/; the fields follow section 3 of the spec (entity Order) and every
use in trader.py. Market orders may carry no price and no average price
until the venue reports them. -/
structure Order where
  order_id : String
  symbol : String
  side : OrderSide
  order_type : OrderType
  quantity : ℚ
  price : Option ℚ
  status : OrderStatus
  filled_quantity : ℚ
  average_price : Option ℚ
  timestamp : ℚ
deriving DecidableEq

/-- The risk section of the configuration (config.py lines 69 to 73)
restricted to the fields the executors read. -/
structure RiskConfig where
  max_drawdown_percent : ℚ
  max_concurrent_trades : ℕ
deriving DecidableEq

/-- Live balance lookup: self.balances.get(exchange, dict()).get(asset, 0). -/
def get_live_balance (bal : List ((String × String) × ℚ)) (exchange asset : String) : ℚ :=
  match bal.find? (fun p => p.1 == (exchange, asset)) with
  | some p => p.2
  | none => 0

/-- Embedding of LiveTrader._risk_checks (trader.py lines 283 to 321):
minimum profit, quote balance on the buy venue, base balance on the sell
venue, the drawdown check with a strict comparison, and the signal age
check. -/
def live_risk_checks (cfg : ArbitrageConfig) (risk : RiskConfig)
    (balances : List ((String × String) × ℚ)) (current_drawdown : ℚ)
    (sig : ArbitrageSignal) (now : ℚ) : Bool :=
  if sig.profit_percent < cfg.min_profit_threshold then false
  else
    let required_balance := cfg.trade_amount_usd
    let buy_balance := get_live_balance balances sig.buy_exchange (quote_asset sig.symbol)
    if buy_balance < required_balance then false
    else
      let sell_balance := get_live_balance balances sig.sell_exchange (base_asset sig.symbol)
      let required_base := required_balance / sig.sell_price
      if sell_balance < required_base then false
      else if risk.max_drawdown_percent < current_drawdown then false
      else if cfg.max_spread_age_seconds < now - sig.timestamp then false
      else true

/-- The gate of LiveTrader.execute_arbitrage before any order placement
(trader.py lines 105 to 117): the run flag, the concurrent-trade cap and
the risk checks. When this returns false the source returns False
without placing any order. -/
def live_accepts_signal (is_running : Bool) (active_count : ℕ) (cfg : ArbitrageConfig)
    (risk : RiskConfig) (balances : List ((String × String) × ℚ))
    (current_drawdown : ℚ) (sig : ArbitrageSignal) (now : ℚ) : Bool :=
  if is_running = false then false
  else if risk.max_concurrent_trades ≤ active_count then false
  else live_risk_checks cfg risk balances current_drawdown sig now

/-- Python `a or b` on optional float prices: a value of None or 0.0
falls through to the alternative. -/
def py_or_price (avg price : Option ℚ) : Option ℚ :=
  match avg with
  | some a => if a = 0 then price else some a
  | none => price

/-- Python truthiness of an optional float price. -/
def truthy_price : Option ℚ → Bool
  | none => false
  | some x => decide (x ≠ 0)

/-- Embedding of the completion branch of LiveTrader._update_trade_status
(trader.py lines 372 to 390): when both orders are FILLED the recorded
profit is (sell price minus buy price) times the buy filled quantity,
each price being the average price falling back to the order price, and
zero when either price is missing or zero. -/
def live_completed_profit (bo so : Order) : ℚ :=
  let abp := py_or_price bo.average_price bo.price
  let asp := py_or_price so.average_price so.price
  if truthy_price abp && truthy_price asp then
    (asp.getD 0 - abp.getD 0) * bo.filled_quantity
  else 0

/-- The realized-profit formula of the spec (sections 4.5 and 8): sell
filled quantity times sell average price, minus buy filled quantity
times buy average price, minus realized fees. -/
def spec_realized_profit (buy_filled buy_avg sell_filled sell_avg fees : ℚ) : ℚ :=
  sell_filled * sell_avg - buy_filled * buy_avg - fees

/-- Embedding of trader.ActiveTrade (trader.py lines 25 to 35). -/
structure ActiveTrade where
  id : ℕ
  signal : ArbitrageSignal
  buy_order : Option Order
  sell_order : Option Order
  status : TradeStatus
  start_time : ℚ
  end_time : Option ℚ
  actual_profit : ℚ
deriving DecidableEq

/-- A cancel_order wire call issued to a venue adapter. -/
structure CancelRequest where
  exchange : String
  order_id : String
  symbol : String
deriving DecidableEq

/-- Embedding of LiveTrader._cancel_trade (trader.py lines 395 to 412):
issue a cancel for each leg still in NEW status, then mark the trade
CANCELLED. -/
def cancel_trade (t : ActiveTrade) (now : ℚ) : ActiveTrade × List CancelRequest :=
  let buy_reqs := match t.buy_order with
    | some o =>
      if o.status = OrderStatus.NEW then
        [{ exchange := t.signal.buy_exchange, order_id := o.order_id,
           symbol := t.signal.symbol : CancelRequest }]
      else []
    | none => []
  let sell_reqs := match t.sell_order with
    | some o =>
      if o.status = OrderStatus.NEW then
        [{ exchange := t.signal.sell_exchange, order_id := o.order_id,
           symbol := t.signal.symbol : CancelRequest }]
      else []
    | none => []
  ({ t with status := TradeStatus.CANCELLED, end_time := some now }, buy_reqs ++ sell_reqs)

/-- Embedding of the trade loop of LiveTrader.stop (trader.py lines 89
to 103): every active trade is cancelled in turn; the collected cancel
requests are the wire calls stop issues. -/
def live_stop (trades : List ActiveTrade) (now : ℚ) : List ActiveTrade × List CancelRequest :=
  match trades with
  | [] => ([], [])
  | t :: rest =>
    let r := cancel_trade t now
    let rr := live_stop rest now
    (r.1 :: rr.1, r.2 ++ rr.2)

/-- A cancel request stop would issue for one active trade: some leg of
the trade is a placed order still in NEW status and the request names
its venue, id and symbol. -/
def stop_cancels_leg (t : ActiveTrade) (c : CancelRequest) : Prop :=
  (∃ o, t.buy_order = some o ∧ o.status = OrderStatus.NEW ∧
      c = { exchange := t.signal.buy_exchange, order_id := o.order_id,
            symbol := t.signal.symbol }) ∨
  (∃ o, t.sell_order = some o ∧ o.status = OrderStatus.NEW ∧
      c = { exchange := t.signal.sell_exchange, order_id := o.order_id,
            symbol := t.signal.symbol })

/-- The signal the detection engine emits from exW_a and exW_b at time 1
under cfgW: buy binance at 100, sell bybit at 102, fraction 1/50,
confidence (1/2 + 4/5) / 2. -/
def sigW : ArbitrageSignal :=
  { symbol := "BTCUSDT"
    buy_exchange := "binance"
    sell_exchange := "bybit"
    buy_price := 100
    sell_price := 102
    profit := 2
    profit_percent := 1/50
    buy_size := 500
    sell_size := 800
    timestamp := 1
    confidence := 13/20 }

/-- Embedding of database.TickerRecord (database.py lines 16 to 26) as
replayed by the backtester. -/
structure TickerRecord where
  exchange : String
  symbol : String
  bid : ℚ
  ask : ℚ
  bid_size : ℚ
  ask_size : ℚ
  timestamp : ℚ
deriving DecidableEq

/-- The full strategy state driven by the backtester: the last-quote
table keyed by exchange and symbol, plus the emission state. The source
keys a dict of dicts by exchange then symbol; the flat association list
preserves per-key update-in-place semantics, and entry collection for a
symbol follows first-insertion order. -/
structure FullStrategyState where
  exchange_data : List ((String × String) × ExchangeData)
  core : StrategyState
deriving DecidableEq

/-- The strategy invocation of the shipped replay (backtester.py line
241): the source calls self.strategy._on_ticker_update(ticker) with the
ticker alone, while the bound method (strategy.py line 106) requires
both the ticker and the exchange name, so Python raises TypeError while
binding the arguments, before the method body or any signal callback
runs. The call is modelled as the error value it raises; its arguments
are the state the continuation of the loop would have threaded. -/
def on_ticker_update_shipped (_fst : FullStrategyState) (_sim : SimState)
    (_rng : List ℚ) (_ticker : Ticker) :
    Except String (FullStrategyState × SimState × List ℚ) :=
  Except.error
    "TypeError: _on_ticker_update missing 1 required positional argument exchange_name"

/-- The record loop of run_backtest and _process_timestamp as shipped
(backtester.py lines 183 to 241) over the timestamp-sorted records:
each record is converted to a Ticker (backtester.py lines 229 to 238)
and handed to the strategy by the shipped single-argument call, whose
TypeError propagates and aborts the run, so the loop dies on the first
record it is given and only an empty record list completes. -/
def process_records_shipped :
    List TickerRecord → FullStrategyState → SimState → List ℚ →
    Except String (FullStrategyState × SimState × List ℚ)
  | [], fst, sim, rng => Except.ok (fst, sim, rng)
  | rec :: rest, fst, sim, rng =>
    match on_ticker_update_shipped fst sim rng
        { symbol := rec.symbol, bid := rec.bid, ask := rec.ask,
          bid_size := rec.bid_size, ask_size := rec.ask_size,
          timestamp := rec.timestamp } with
    | Except.error e => Except.error e
    | Except.ok r => process_records_shipped rest r.1 r.2.1 r.2.2

/-- Stable insertion into a timestamp-sorted record list; a record with
an equal timestamp goes after the existing ones. -/
def insert_by_time (r : TickerRecord) : List TickerRecord → List TickerRecord
  | [] => [r]
  | x :: rest =>
    if x.timestamp ≤ r.timestamp then x :: insert_by_time r rest
    else r :: x :: rest

/-- The timestamp sort of run_backtest (backtester.py lines 167 to 173),
as a stable insertion sort. -/
def sort_by_timestamp (l : List TickerRecord) : List TickerRecord :=
  l.foldl (fun acc r => insert_by_time r acc) []

/-- Embedding of Backtester.run_backtest as shipped (backtester.py
lines 155 to 215) over the loaded per-key record lists: an empty data
map is refused (line 158), the simulator is started (is_running set,
simulator.py lines 130 to 137), and the records are replayed in
timestamp order through the shipped strategy call. A run that returns
replayed no record, so it reports the started-then-stopped simulator
otherwise as seeded and an empty signal list: _on_arbitrage_signal
(backtester.py lines 243 to 251), which records the signals and drives
the simulator, only runs inside the strategy call, which never returns,
and the random stream is never consumed. -/
def run_backtest_shipped (_cfg : ArbitrageConfig) (sim0 : SimState)
    (historical_data : List (String × List TickerRecord)) (rng : List ℚ) :
    Except String (SimState × List ArbitrageSignal) :=
  if historical_data.isEmpty then
    Except.error "ValueError: No historical data loaded"
  else
    let records := sort_by_timestamp (historical_data.flatMap (fun p => p.2))
    match process_records_shipped records
        { exchange_data := [], core := initial_strategy_state }
        { sim0 with is_running := true } rng with
    | Except.error e => Except.error e
    | Except.ok r => Except.ok ({ r.2.1 with is_running := false }, [])

/-- The per-venue seed balances of TradingSimulator._initialize_balances
(simulator.py lines 96 to 128): 10000 USDT plus small crypto seeds. -/
def initial_balances (enabled : List String) :
    List ((String × String) × SimulatedBalance) :=
  enabled.flatMap (fun ex =>
    [((ex, "USDT"), { asset := "USDT", free := 10000, locked := 0 }),
     ((ex, "BTC"), { asset := "BTC", free := 1000/50000, locked := 0 }),
     ((ex, "ETH"), { asset := "ETH", free := 1000/3000, locked := 0 }),
     ((ex, "BNB"), { asset := "BNB", free := 1000, locked := 0 }),
     ((ex, "ADA"), { asset := "ADA", free := 1000, locked := 0 }),
     ((ex, "DOT"), { asset := "DOT", free := 1000, locked := 0 })])

/-- The simulator state TradingSimulator.__init__ constructs
(simulator.py lines 57 to 94): seeded balances, hardcoded fill delay of
2 seconds, 10 percent partial-fill chance, 5 percent rejection chance,
run flag off until start. -/
def init_sim_state (cfg : ArbitrageConfig) : SimState :=
  let bal := initial_balances cfg.enabled_exchanges
  { balances := bal
    orders := []
    active_trades := []
    completed_trades := []
    trade_counter := 0
    order_seq := 0
    is_running := false
    total_trades := 0
    successful_trades := 0
    failed_trades := 0
    total_profit := 0
    total_fees := 0
    total_volume := 0
    max_drawdown := 0
    current_drawdown := 0
    initial_portfolio_value := calculate_portfolio_value bal
    slippage_percent := cfg.slippage_tolerance
    fill_delay_seconds := 2
    pfill_probability := 1/10
    order_reject_probability := 1/20 }

/-- First record of the backtest determinism history: binance quotes at
time 0. -/
def recC8a : TickerRecord :=
  { exchange := "binance", symbol := "BTCUSDT", bid := 99, ask := 100,
    bid_size := 500, ask_size := 500, timestamp := 0 }

/-- Second record of the backtest determinism history: bybit quotes at
time 1, opening the dislocation. -/
def recC8b : TickerRecord :=
  { exchange := "bybit", symbol := "BTCUSDT", bid := 102, ask := 103,
    bid_size := 800, ask_size := 800, timestamp := 1 }

/-- The loaded data map of the backtest failing input: the two quote
records under their backtester keys (exchange, underscore, symbol). -/
def dataC8 : List (String × List TickerRecord) :=
  [("binance_BTCUSDT", [recC8a]), ("bybit_BTCUSDT", [recC8b])]

/-- One pass through the reconnection loop of
BinanceExchange._handle_ws_messages_with_reconnect (binance.py lines 179
to 273): either the reconnect attempt itself raises before the retry
counter is reset, or a session runs and ends in an abnormal closure, or
the stream is closed cleanly by disconnect. -/
inductive WsOutcome
  | connect_error
  | session_abnormal
  | session_clean
deriving DecidableEq

/-- The backoff delay of the source (binance.py line 268):
min(base_delay * 2 ** (retry_count - 1), max_delay) with base 1 second
and cap 60 seconds. -/
def backoff_delay (n : ℕ) : ℕ :=
  min (1 * 2 ^ (n - 1)) 60

/-- Embedding of the reconnection loop (binance.py lines 186 to 273)
over a script of connection outcomes, carrying the retry counter. A
successful session resets the counter to zero at line 206 before its
closure is handled, so only consecutive failures accumulate. Returns the
reconnection attempts as pairs of attempt number and the delay slept
before that attempt, and whether the loop declared the stream
permanently dead by exceeding max_retries; once dead, no further outcome
is consumed and the adapter publishes nothing more. -/
def run_reconnect (max_retries : ℕ) : List WsOutcome → ℕ → List (ℕ × ℕ) × Bool
  | [], _ => ([], false)
  | o :: rest, rc =>
    match o with
    | WsOutcome.session_clean => ([], false)
    | _ =>
      let rc0 := match o with
        | WsOutcome.session_abnormal => 0
        | _ => rc
      let rc1 := rc0 + 1
      if max_retries < rc1 then ([], true)
      else
        let d := backoff_delay rc1
        let r := run_reconnect max_retries rest rc1
        ((rc1, d) :: r.1, r.2)

/-- A placeholder active trade occupying the concurrency slot of the
counterexample simulator state. -/
def tradeC3 : SimulatedTrade :=
  { id := 1
    signal := sigW
    buy_order := none
    sell_order := none
    status := "pending"
    start_time := 0
    end_time := none
    actual_profit := 0
    fees_paid := 0 }

/-- A running simulator holding one active trade and a 100 percent
drawdown, with ample balances. -/
def stC3 : SimState :=
  { balances := [(("binance", "USDT"), { asset := "USDT", free := 10000, locked := 0 }),
                 (("bybit", "BTC"), { asset := "BTC", free := 1, locked := 0 })]
    orders := []
    active_trades := [tradeC3]
    completed_trades := []
    trade_counter := 1
    order_seq := 0
    is_running := true
    total_trades := 1
    successful_trades := 0
    failed_trades := 0
    total_profit := 0
    total_fees := 0
    total_volume := 0
    max_drawdown := 100
    current_drawdown := 100
    initial_portfolio_value := 10000
    slippage_percent := 0
    fill_delay_seconds := 2
    pfill_probability := 1/10
    order_reject_probability := 1/20 }

/-- Risk configuration with one allowed concurrent trade and a 5 percent
drawdown cap. -/
def riskC3 : RiskConfig :=
  { max_drawdown_percent := 5
    max_concurrent_trades := 1 }

/-- Live balances sufficient for sigW under cfgW. -/
def balC3 : List ((String × String) × ℚ) :=
  [(("binance", "USDT"), 1000), (("bybit", "BTC"), 1)]

/-- stC3 with no active trade, no drawdown, and slippage of 0.1 percent,
the starting point of the balance-invariant scenario. -/
def stC4 : SimState :=
  { stC3 with
    active_trades := []
    trade_counter := 0
    total_trades := 0
    max_drawdown := 0
    current_drawdown := 0
    slippage_percent := 1/1000 }

/-- cfgW with slippage tolerance of 0.1 percent. -/
def cfgC4 : ArbitrageConfig :=
  { cfgW with slippage_tolerance := 1/1000 }

/-- The simulator state after executing sigW on stC4 with neither leg
rejected. -/
def stC4_exec : SimState :=
  (sim_execute_arbitrage cfgC4 stC4 sigW 1 [1, 1]).1

/-- stC4_exec after the buy leg fills in full with slippage. -/
def stC4_fill1 : SimState :=
  fill_first_order stC4_exec 3 1

/-- The starting state of the partial-fill scenario: no slippage, the
partial-fill probability raised to 1 as in scenario 4 of the spec. -/
def stC4b : SimState :=
  { stC4 with slippage_percent := 0, pfill_probability := 1 }

/-- The partial-fill scenario after execution of sigW. -/
def stC4b_exec : SimState :=
  (sim_execute_arbitrage cfgW stC4b sigW 1 [1, 1]).1

/-- The partial-fill scenario after the buy leg fills at 70 percent. -/
def stC4b_fill1 : SimState :=
  fill_first_order stC4b_exec 3 0

/-- The partial-fill scenario after both legs fill at 70 percent. -/
def stC4b_fill2 : SimState :=
  fill_first_order stC4b_fill1 3 0

/-- The partial-fill scenario after the trade is completed. -/
def stC4b_done : SimState :=
  complete_first_trade stC4b_fill2 5

/-- Buy leg of the live profit counterexample: 1 unit filled at an
average price of 100. -/
def boC5 : Order :=
  { order_id := "b1"
    symbol := "BTCUSDT"
    side := OrderSide.BUY
    order_type := OrderType.MARKET
    quantity := 1
    price := some 100
    status := OrderStatus.FILLED
    filled_quantity := 1
    average_price := some 100
    timestamp := 0 }

/-- Sell leg of the live profit counterexample: 1 unit filled at an
average price of 101. -/
def soC5 : Order :=
  { order_id := "s1"
    symbol := "BTCUSDT"
    side := OrderSide.SELL
    order_type := OrderType.MARKET
    quantity := 1
    price := some 101
    status := OrderStatus.FILLED
    filled_quantity := 1
    average_price := some 101
    timestamp := 0 }

/-- The taker fees a venue charging 0.1 percent realizes on the two legs
of the C5 counterexample: 100 times 0.001 plus 101 times 0.001. -/
def feesC5 : ℚ := 100 * (1/1000) + 101 * (1/1000)

/-- A placed and unsettled order at shutdown time. -/
def orderC9 : Order :=
  { order_id := "o1"
    symbol := "BTCUSDT"
    side := OrderSide.BUY
    order_type := OrderType.MARKET
    quantity := 1
    price := none
    status := OrderStatus.NEW
    filled_quantity := 0
    average_price := none
    timestamp := 0 }

/-- An active trade whose buy leg is placed but unsettled. -/
def tradeC9 : ActiveTrade :=
  { id := 1
    signal := sigW
    buy_order := some orderC9
    sell_order := none
    status := TradeStatus.PENDING
    start_time := 0
    end_time := none
    actual_profit := 0 }

end Arbot

namespace Arbot

section MainTheorems

attribute [local semireducible] Rat.mul Rat.add Rat.sub Rat.inv

set_option maxRecDepth 1000000

/-- C1. For every ordered pair (A, B) of quote entries, the candidate
computed by _calculate_arbitrage carries exactly the net profit
(B.bid - A.ask) - (A.ask * taker_fee A + B.bid * taker_fee B)
- A.ask * slippage_tolerance and the profit fraction net / A.ask
(zero when A.ask is not positive), and no signal is produced when that
profit fraction is not positive. -/
theorem c1_calculate_arbitrage_profit_formula (cfg : ArbitrageConfig)
    (a b : ExchangeData) (symbol : String) (now : ℚ) :
    (∀ s, calculate_arbitrage cfg a b symbol now = some s →
        s.profit = specNetProfit cfg a b ∧
        s.profit_percent = specProfitFraction cfg a b) ∧
    (specProfitFraction cfg a b ≤ 0 →
        calculate_arbitrage cfg a b symbol now = none) := by
  have hnet : (b.ticker.bid - a.ticker.ask
      - (a.ticker.ask * a.taker_fee + b.ticker.bid * b.taker_fee)
      - a.ticker.ask * cfg.slippage_tolerance) = specNetProfit cfg a b := by
    unfold specNetProfit; ring
  unfold calculate_arbitrage
  simp only
  by_cases hask : 0 < a.ticker.ask
  · have hsp : specProfitFraction cfg a b
        = (b.ticker.bid - a.ticker.ask
            - (a.ticker.ask * a.taker_fee + b.ticker.bid * b.taker_fee)
            - a.ticker.ask * cfg.slippage_tolerance) / a.ticker.ask := by
      rw [specProfitFraction, if_pos hask, hnet]
    rw [if_pos hask, hsp, ← hnet]
    by_cases hle : (b.ticker.bid - a.ticker.ask
        - (a.ticker.ask * a.taker_fee + b.ticker.bid * b.taker_fee)
        - a.ticker.ask * cfg.slippage_tolerance) / a.ticker.ask ≤ 0
    · rw [if_pos hle]
      exact ⟨fun s h => absurd h (by simp), fun _ => rfl⟩
    · rw [if_neg hle]
      refine ⟨fun s h => ?_, fun h => absurd h hle⟩
      injection h with h'
      subst h'
      exact ⟨rfl, rfl⟩
  · have hsp : specProfitFraction cfg a b = 0 := by
      rw [specProfitFraction, if_neg hask]
    rw [if_neg hask, hsp, if_pos (le_refl (0 : ℚ))]
    exact ⟨fun s h => absurd h (by simp), fun _ => rfl⟩

/-- Witness for C1 at a concrete input: buying on bybit at 103 and selling
on binance at 99 has a non-positive profit fraction, so the engine
produces no candidate. -/
theorem c1_witness :
    specProfitFraction cfgW exW_b exW_a ≤ 0 ∧
    calculate_arbitrage cfgW exW_b exW_a "BTCUSDT" 1 = none :=
  ⟨by decide,
   (c1_calculate_arbitrage_profit_formula cfgW exW_b exW_a "BTCUSDT" 1).2 (by decide)⟩

/-- Every signal the opportunity-processing loop emits is one of the
candidates it was handed. -/
theorem process_opportunities_subset (cfg : ArbitrageConfig) (now : ℚ) :
    ∀ (ops : List ArbitrageSignal) (st : StrategyState) (s : ArbitrageSignal),
      s ∈ (process_opportunities cfg st now ops).2 → s ∈ ops := by
  intro ops
  induction ops with
  | nil => intro st s hs; simp [process_opportunities] at hs
  | cons o rest ih =>
    intro st s hs
    simp only [process_opportunities] at hs
    rcases List.mem_append.mp hs with h | h
    · by_cases hc : (handle_arbitrage_opportunity cfg st o now).2 = true
      · simp only [hc, if_pos] at h
        simp only [List.mem_singleton] at h
        simp [h]
      · simp [hc] at h
    · exact List.mem_cons_of_mem _ (ih _ _ h)

/-- The two components of every enumerated candidate pair are in the
entry list. -/
theorem ordered_pairs_mem :
    ∀ (l : List ExchangeData) (p : ExchangeData × ExchangeData),
      p ∈ ordered_pairs l → p.1 ∈ l ∧ p.2 ∈ l := by
  intro l
  induction l with
  | nil => intro p hp; simp [ordered_pairs] at hp
  | cons e rest ih =>
    intro p hp
    simp only [ordered_pairs, List.mem_append, List.mem_flatMap] at hp
    rcases hp with ⟨f, hf, hmem⟩ | hp
    · simp only [List.mem_cons, List.mem_singleton] at hmem
      rcases hmem with rfl | rfl | h
      · exact ⟨List.mem_cons_self _ _, List.mem_cons_of_mem _ hf⟩
      · exact ⟨List.mem_cons_of_mem _ hf, List.mem_cons_self _ _⟩
      · simp at h
    · obtain ⟨h1, h2⟩ := ih p hp
      exact ⟨List.mem_cons_of_mem _ h1, List.mem_cons_of_mem _ h2⟩

/-- When the entry list carries pairwise distinct exchange names, every
enumerated candidate pair has distinct exchange names. The entry list of
the source is the value list of a dict keyed by exchange name, so its
names are pairwise distinct. -/
theorem ordered_pairs_mem_ne :
    ∀ (l : List ExchangeData),
      l.Pairwise (fun x y => x.exchange_name ≠ y.exchange_name) →
      ∀ p ∈ ordered_pairs l, p.1.exchange_name ≠ p.2.exchange_name := by
  intro l
  induction l with
  | nil => intro _ p hp; simp [ordered_pairs] at hp
  | cons e rest ih =>
    intro hl p hp
    rw [List.pairwise_cons] at hl
    simp only [ordered_pairs, List.mem_append, List.mem_flatMap] at hp
    rcases hp with ⟨f, hf, hmem⟩ | hp
    · simp only [List.mem_cons, List.mem_singleton] at hmem
      rcases hmem with rfl | rfl | h
      · exact hl.1 f hf
      · exact (hl.1 f hf).symm
      · simp at h
    · exact ih hl.2 p hp

/-- Field values of a candidate signal: the venues and the confidence
expression, read off _calculate_arbitrage. -/
theorem calculate_arbitrage_fields (cfg : ArbitrageConfig) (a b : ExchangeData)
    (symbol : String) (now : ℚ) (s : ArbitrageSignal)
    (h : calculate_arbitrage cfg a b symbol now = some s) :
    s.buy_exchange = a.exchange_name ∧ s.sell_exchange = b.exchange_name ∧
    s.confidence = (min (min a.ticker.ask_size b.ticker.bid_size / 1000) 1
        + max 0 (1 - (now - max a.last_updated b.last_updated)
                    / cfg.max_spread_age_seconds)) / 2 := by
  unfold calculate_arbitrage at h
  simp only at h
  split at h
  · split at h
    · exact absurd h (by simp)
    · injection h with h'
      subst h'
      exact ⟨rfl, rfl, rfl⟩
  · rw [if_pos (le_refl (0 : ℚ))] at h
    exact absurd h (by simp)

/-- The confidence expression of _calculate_arbitrage lies in the unit
interval as soon as the two sizes are nonnegative, both entries were
updated no later than now, and the freshness window is positive. -/
theorem confidence_bounds (asz bsz lua lub now maxage : ℚ)
    (ha : 0 ≤ asz) (hb : 0 ≤ bsz) (h1 : lua ≤ now) (h2 : lub ≤ now) (hm : 0 < maxage) :
    0 ≤ (min (min asz bsz / 1000) 1 + max 0 (1 - (now - max lua lub) / maxage)) / 2 ∧
    (min (min asz bsz / 1000) 1 + max 0 (1 - (now - max lua lub) / maxage)) / 2 ≤ 1 := by
  have hsc0 : 0 ≤ min (min asz bsz / 1000) 1 :=
    le_min (div_nonneg (le_min ha hb) (by norm_num)) (by norm_num)
  have hsc1 : min (min asz bsz / 1000) 1 ≤ 1 := min_le_right _ _
  have hnum : 0 ≤ now - max lua lub := by
    have := max_le h1 h2
    linarith
  have hd : 0 ≤ (now - max lua lub) / maxage := div_nonneg hnum hm.le
  have hac0 : 0 ≤ max 0 (1 - (now - max lua lub) / maxage) := le_max_left _ _
  have hac1 : max 0 (1 - (now - max lua lub) / maxage) ≤ 1 :=
    max_le (by norm_num) (by linarith)
  constructor <;> linarith

/-- C2. Every signal the detection engine emits has a profit fraction
inside the closed threshold window, distinct buy and sell venues, and a
confidence in the unit interval. The hypotheses are the data-model
invariants of the spec: quote sizes are nonnegative, table entries are
not from the future, the freshness window is positive, and the quote
table holds one entry per venue. -/
theorem c2_emitted_signal_invariants (cfg : ArbitrageConfig) (st : StrategyState)
    (entries : List ExchangeData) (symbol : String) (now : ℚ)
    (hdist : entries.Pairwise (fun x y => x.exchange_name ≠ y.exchange_name))
    (hsz : ∀ e ∈ entries, 0 ≤ e.ticker.ask_size ∧ 0 ≤ e.ticker.bid_size)
    (hts : ∀ e ∈ entries, e.last_updated ≤ now)
    (hage : 0 < cfg.max_spread_age_seconds) :
    ∀ s ∈ (check_arbitrage_opportunities cfg st entries symbol now).2,
      cfg.min_profit_threshold ≤ s.profit_percent ∧
      s.profit_percent ≤ cfg.max_spread_threshold ∧
      s.buy_exchange ≠ s.sell_exchange ∧
      0 ≤ s.confidence ∧ s.confidence ≤ 1 := by
  intro s hs
  unfold check_arbitrage_opportunities at hs
  by_cases hrun : st.is_running = false
  · simp [hrun] at hs
  · rw [if_neg hrun] at hs
    simp only at hs
    by_cases hlen :
      (entries.filter
        (fun e => decide (now - e.last_updated ≤ cfg.max_spread_age_seconds))).length < 2
    · rw [if_pos hlen] at hs; simp at hs
    · rw [if_neg hlen] at hs
      have hpass := process_opportunities_subset cfg now _ st s hs
      rw [List.mem_filter] at hpass
      obtain ⟨hcand, hbounds⟩ := hpass
      rw [List.mem_filterMap] at hcand
      obtain ⟨p, hp, hcalc⟩ := hcand
      have hbounds' : cfg.min_profit_threshold ≤ s.profit_percent ∧
          s.profit_percent ≤ cfg.max_spread_threshold := by
        rw [Bool.and_eq_true, decide_eq_true_iff, decide_eq_true_iff] at hbounds
        exact hbounds
      have hfr_pw : (entries.filter
            (fun e => decide (now - e.last_updated ≤ cfg.max_spread_age_seconds))).Pairwise
            (fun x y => x.exchange_name ≠ y.exchange_name) :=
        List.Pairwise.sublist (List.filter_sublist _) hdist
      have hne := ordered_pairs_mem_ne _ hfr_pw p hp
      obtain ⟨hm1, hm2⟩ := ordered_pairs_mem _ p hp
      have hm1' := List.mem_of_mem_filter hm1
      have hm2' := List.mem_of_mem_filter hm2
      obtain ⟨hbuy, hsell, hconf⟩ :=
        calculate_arbitrage_fields cfg p.1 p.2 symbol now s hcalc
      refine ⟨hbounds'.1, hbounds'.2, ?_, ?_, ?_⟩
      · rw [hbuy, hsell]; exact hne
      · rw [hconf]
        exact (confidence_bounds _ _ _ _ _ _ (hsz _ hm1').1 (hsz _ hm2').2
          (hts _ hm1') (hts _ hm2') hage).1
      · rw [hconf]
        exact (confidence_bounds _ _ _ _ _ _ (hsz _ hm1').1 (hsz _ hm2').2
          (hts _ hm1') (hts _ hm2') hage).2

/-- Witness for C2 at a concrete input: the signal emitted from the
binance/bybit dislocation satisfies all the stated bounds. -/
theorem c2_witness :
    cfgW.min_profit_threshold ≤ sigW.profit_percent ∧
    sigW.profit_percent ≤ cfgW.max_spread_threshold ∧
    sigW.buy_exchange ≠ sigW.sell_exchange ∧
    0 ≤ sigW.confidence ∧ sigW.confidence ≤ 1 :=
  c2_emitted_signal_invariants cfgW initial_strategy_state [exW_a, exW_b] "BTCUSDT" 1
    (by decide) (by decide) (by decide) (by decide) sigW (by decide)

/-- C6 counterexample: with max_trades_per_hour configured as 101, one
hundred and two signals are emitted within a single trailing hour. The
rate check counts recent signals inside a ring buffer that retains only
the last 100, so a cap above 100 can never trip. -/
theorem c6_counterexample :
    cfgC6.max_trades_per_hour <
      window_count (run_handles cfgC6 initial_strategy_state traceC6).2 101 := by
  decide

/-- A countP strictly below the length leaves an element that fails the
predicate. -/
theorem countP_lt_length_exists {α : Type} (p : α → Bool) (l : List α)
    (h : l.countP p < l.length) : ∃ x ∈ l, ¬ p x = true := by
  by_contra hc
  push_neg at hc
  rw [List.countP_eq_length.mpr hc] at h
  exact lt_irrefl _ h

/-- The opportunity handler either leaves the state alone and does not
emit, or emits with the rate check passed, appending to the ring buffer
and stamping the cooldown. -/
theorem handle_spec (cfg : ArbitrageConfig) (st : StrategyState) (sig : ArbitrageSignal)
    (now : ℚ) :
    handle_arbitrage_opportunity cfg st sig now = (st, false) ∨
    ((st.recent_signals.filter (fun s => decide (now - s.timestamp < 3600))).length
        < cfg.max_trades_per_hour ∧
      handle_arbitrage_opportunity cfg st sig now =
        ({ recent_signals := deque_append 100 st.recent_signals sig
           trade_cooldown := ((sig.symbol, sig.buy_exchange, sig.sell_exchange), now)
               :: st.trade_cooldown
           signals_generated := st.signals_generated + 1
           is_running := st.is_running }, true)) := by
  unfold handle_arbitrage_opportunity
  simp only
  split
  · exact Or.inl rfl
  · split
    · exact Or.inl rfl
    · rename_i hrate
      exact Or.inr ⟨Nat.lt_of_not_le (fun hle => hrate hle), rfl⟩

/-- One handler call preserves the rate invariant, moving the clock from
t0 forward to t. -/
theorem handle_preserves_inv (cfg : ArbitrageConfig)
    (hmax : cfg.max_trades_per_hour ≤ 100)
    (st : StrategyState) (E : List ArbitrageSignal) (t0 t : ℚ) (sig : ArbitrageSignal)
    (hts : sig.timestamp = t) (ht : t0 ≤ t) (hinv : RateInv cfg st E t0) :
    RateInv cfg (handle_arbitrage_opportunity cfg st sig t).1
      (E ++ (if (handle_arbitrage_opportunity cfg st sig t).2 then [sig] else [])) t := by
  obtain ⟨⟨P, hPE, hPold⟩, hsortE, hEt, hlen, hwin⟩ := hinv
  have hP3 : ∀ s ∈ P, s.timestamp ≤ t - 3600 :=
    fun s hs => le_trans (hPold s hs) (by linarith)
  rcases handle_spec cfg st sig t with hcase | ⟨hrate, hcase⟩
  · rw [hcase]
    simp only [List.append_nil, if_neg Bool.false_ne_true]
    exact ⟨⟨P, hPE, hP3⟩, hsortE, fun s hs => le_trans (hEt s hs) ht, hlen, hwin⟩
  · rw [hcase]
    show RateInv cfg
      { recent_signals := deque_append 100 st.recent_signals sig
        trade_cooldown := ((sig.symbol, sig.buy_exchange, sig.sell_exchange), t)
            :: st.trade_cooldown
        signals_generated := st.signals_generated + 1
        is_running := st.is_running }
      (E ++ [sig]) t
    have hEt' : ∀ s ∈ E ++ [sig], s.timestamp ≤ t := by
      intro s hs
      rcases List.mem_append.mp hs with h | h
      · exact le_trans (hEt s h) ht
      · rw [List.mem_singleton] at h; rw [h, hts]
    refine ⟨?_, ?_, hEt', ?_, ?_⟩
    · -- the new emitted list is still the complement-plus-buffer split
      unfold deque_append
      simp only
      by_cases hn : st.recent_signals.length + 1 ≤ 100
      · have hzero : (st.recent_signals ++ [sig]).length - 100 = 0 := by
          rw [List.length_append, List.length_singleton]; omega
        rw [hzero, List.drop_zero]
        exact ⟨P, by rw [hPE, List.append_assoc], hP3⟩
      · have h100 : st.recent_signals.length = 100 := by omega
        have hone : (st.recent_signals ++ [sig]).length - 100 = 1 := by
          rw [List.length_append, List.length_singleton]; omega
        rw [hone]
        rcases hrec : st.recent_signals with _ | ⟨r0, rtail⟩
        · rw [hrec] at h100; simp at h100
        · have hdrop : ((r0 :: rtail) ++ [sig]).drop 1 = rtail ++ [sig] := rfl
          rw [hdrop]
          refine ⟨P ++ [r0], ?_, ?_⟩
          · rw [hPE, hrec]
            simp [List.append_assoc]
          · intro s hs
            rcases List.mem_append.mp hs with h | h
            · exact hP3 s h
            · rw [List.mem_singleton] at h
              subst h
              -- the rate check passed on a full buffer, so some element
              -- is out of the window, and the head is the oldest
              have hcnt : st.recent_signals.countP
                  (fun s => decide (t - s.timestamp < 3600)) < st.recent_signals.length := by
                rw [List.countP_eq_length_filter]
                omega
              obtain ⟨x, hx, hxq⟩ := countP_lt_length_exists _ _ hcnt
              have hxold : x.timestamp ≤ t - 3600 := by
                rw [decide_eq_true_iff] at hxq
                push_neg at hxq
                linarith
              have hsort_rec : st.recent_signals.Pairwise
                  (fun a b => a.timestamp ≤ b.timestamp) := by
                rw [hPE] at hsortE
                exact (List.pairwise_append.mp hsortE).2.1
              rw [hrec] at hsort_rec hx
              rw [List.pairwise_cons] at hsort_rec
              rcases List.mem_cons.mp hx with h | h
              · rw [← h]; exact hxold
              · exact le_trans (hsort_rec.1 x h) hxold
    · rw [List.pairwise_append]
      refine ⟨hsortE, List.pairwise_singleton _ _, ?_⟩
      intro a ha b hb
      rw [List.mem_singleton] at hb
      subst hb
      rw [hts]
      exact le_trans (hEt a ha) ht
    · unfold deque_append
      simp only
      rw [List.length_drop, List.length_append, List.length_singleton]
      omega
    · intro T
      rw [window_count, List.countP_append]
      by_cases hin : T - 3600 < t ∧ t ≤ T
      · have hone : List.countP
            (fun s => decide (T - 3600 < s.timestamp) && decide (s.timestamp ≤ T)) [sig] = 1 := by
          simp [hts, hin.1, hin.2]
        suffices hlt : window_count E T < cfg.max_trades_per_hour by
          rw [window_count] at hlt
          omega
        rw [window_count, hPE, List.countP_append]
        have hPzero : List.countP
            (fun s => decide (T - 3600 < s.timestamp) && decide (s.timestamp ≤ T)) P = 0 := by
          rw [List.countP_eq_zero]
          intro s hs
          have h1 := hP3 s hs
          have h2 : ¬ (T - 3600 < s.timestamp) := by
            have : t - 3600 ≤ T - 3600 := by linarith [hin.2]
            linarith
          simp [h2]
        have hmono : List.countP
            (fun s => decide (T - 3600 < s.timestamp) && decide (s.timestamp ≤ T))
              st.recent_signals ≤
            List.countP (fun s => decide (t - s.timestamp < 3600)) st.recent_signals := by
          apply List.countP_mono_left
          intro s _ hp
          rw [Bool.and_eq_true, decide_eq_true_iff, decide_eq_true_iff] at hp
          rw [decide_eq_true_iff]
          have : t - 3600 ≤ T - 3600 := by linarith [hin.2]
          linarith [hp.1]
        have hq : List.countP (fun s => decide (t - s.timestamp < 3600)) st.recent_signals
            < cfg.max_trades_per_hour := by
          rw [List.countP_eq_length_filter]
          exact hrate
        omega
      · have hzero : List.countP
            (fun s => decide (T - 3600 < s.timestamp) && decide (s.timestamp ≤ T)) [sig] = 0 := by
          rcases not_and_or.mp hin with h | h
          · simp [hts, h]
          · simp [hts, h]
        have := hwin T
        rw [window_count] at this
        omega

/-- Folding the handler over a time-sorted trace keeps every trailing
one-hour window of the emitted signals within the cap, provided the cap
does not exceed the ring-buffer size. -/
theorem run_handles_window_bound (cfg : ArbitrageConfig)
    (hmax : cfg.max_trades_per_hour ≤ 100) :
    ∀ (trace : List (ArbitrageSignal × ℚ)) (st : StrategyState)
      (E : List ArbitrageSignal) (t0 : ℚ),
      (∀ p ∈ trace, p.1.timestamp = p.2) →
      trace.Pairwise (fun p q => p.2 ≤ q.2) →
      (∀ p ∈ trace, t0 ≤ p.2) →
      RateInv cfg st E t0 →
      ∀ T, window_count (E ++ (run_handles cfg st trace).2) T
        ≤ cfg.max_trades_per_hour := by
  intro trace
  induction trace with
  | nil =>
    intro st E t0 _ _ _ hinv T
    simpa [run_handles] using hinv.2.2.2.2 T
  | cons p rest ih =>
    intro st E t0 htrts hsorted ht0 hinv T
    obtain ⟨sig, t⟩ := p
    rw [List.pairwise_cons] at hsorted
    have hsig : sig.timestamp = t := htrts _ (List.mem_cons_self _ _)
    have htt0 : t0 ≤ t := ht0 _ (List.mem_cons_self _ _)
    have hstep := handle_preserves_inv cfg hmax st E t0 t sig hsig htt0 hinv
    simp only [run_handles]
    rw [← List.append_assoc]
    exact ih (handle_arbitrage_opportunity cfg st sig t).1
      (E ++ (if (handle_arbitrage_opportunity cfg st sig t).2 then [sig] else [])) t
      (fun q hq => htrts q (List.mem_cons_of_mem _ hq)) hsorted.2
      (fun q hq => hsorted.1 q hq) hstep T

/-- C6 amended. Whenever the configured hourly cap does not exceed 100,
any time-sorted trace of handler calls starting from the initial
strategy state emits at most max_trades_per_hour signals in every
trailing one-hour window. For caps above 100 the bound fails, because
the rate check counts inside a ring buffer of length 100. -/
theorem c6_amended_rate_limit (cfg : ArbitrageConfig)
    (hmax : cfg.max_trades_per_hour ≤ 100)
    (trace : List (ArbitrageSignal × ℚ))
    (htrts : ∀ p ∈ trace, p.1.timestamp = p.2)
    (hsorted : trace.Pairwise (fun p q => p.2 ≤ q.2)) :
    ∀ T, window_count (run_handles cfg initial_strategy_state trace).2 T
        ≤ cfg.max_trades_per_hour := by
  intro T
  cases trace with
  | nil => simp [run_handles, window_count]
  | cons p rest =>
    have hinv : RateInv cfg initial_strategy_state [] p.2 := by
      refine ⟨⟨[], rfl, by simp⟩, by simp, by simp, ?_, ?_⟩
      · simp [initial_strategy_state]
      · intro T'; simp [window_count]
    have ht0 : ∀ q ∈ p :: rest, p.2 ≤ q.2 := by
      intro q hq
      rcases List.mem_cons.mp hq with h | h
      · rw [h]
      · exact (List.pairwise_cons.mp hsorted).1 q h
    have := run_handles_window_bound cfg hmax (p :: rest) initial_strategy_state [] p.2
      htrts hsorted ht0 hinv T
    simpa using this

/-- Witness for the amended C6 at a concrete input: with the cap at 1,
after two handler calls at times 0 and 1 the window ending at 1 holds at
most one signal. -/
theorem c6_amended_witness :
    window_count (run_handles cfgW initial_strategy_state
        [(mkSigC6 0, 0), (mkSigC6 1, 1)]).2 1 ≤ cfgW.max_trades_per_hour :=
  c6_amended_rate_limit cfgW (by decide) [(mkSigC6 0, 0), (mkSigC6 1, 1)]
    (by decide) (by decide) 1

/-- C3 amended. The live executor refuses before placing any order when
the concurrent-trade cap is reached, when the current drawdown strictly
exceeds the drawdown cap, or when the signal age exceeds the freshness
window; the simulator applies none of those checks, and whenever it
accepts a signal the only signal-level conditions implied are its own
two checks, the minimum-profit threshold and a positive trade size. -/
theorem c3_amended_executor_refusals :
    (∀ (is_running : Bool) (active_count : ℕ) (cfg : ArbitrageConfig) (risk : RiskConfig)
        (balances : List ((String × String) × ℚ)) (dd : ℚ) (sig : ArbitrageSignal) (now : ℚ),
        risk.max_concurrent_trades ≤ active_count →
        live_accepts_signal is_running active_count cfg risk balances dd sig now = false) ∧
    (∀ (is_running : Bool) (active_count : ℕ) (cfg : ArbitrageConfig) (risk : RiskConfig)
        (balances : List ((String × String) × ℚ)) (dd : ℚ) (sig : ArbitrageSignal) (now : ℚ),
        risk.max_drawdown_percent < dd →
        live_accepts_signal is_running active_count cfg risk balances dd sig now = false) ∧
    (∀ (is_running : Bool) (active_count : ℕ) (cfg : ArbitrageConfig) (risk : RiskConfig)
        (balances : List ((String × String) × ℚ)) (dd : ℚ) (sig : ArbitrageSignal) (now : ℚ),
        cfg.max_spread_age_seconds < now - sig.timestamp →
        live_accepts_signal is_running active_count cfg risk balances dd sig now = false) ∧
    (∀ (cfg : ArbitrageConfig) (st : SimState) (sig : ArbitrageSignal) (now : ℚ)
        (rng : List ℚ),
        (sim_execute_arbitrage cfg st sig now rng).2.1 = true →
        cfg.min_profit_threshold ≤ sig.profit_percent ∧
        0 < sim_calculate_trade_size cfg st sig) := by
  refine ⟨?_, ?_, ?_, ?_⟩
  · intro is_running active_count cfg risk balances dd sig now h
    by_cases hr : is_running = false
    · simp [live_accepts_signal, hr]
    · unfold live_accepts_signal
      rw [if_neg hr, if_pos h]
  · intro is_running active_count cfg risk balances dd sig now h
    unfold live_accepts_signal live_risk_checks
    simp only
    split_ifs <;> first | rfl | (exfalso; linarith)
  · intro is_running active_count cfg risk balances dd sig now h
    unfold live_accepts_signal live_risk_checks
    simp only
    split_ifs <;> first | rfl | (exfalso; linarith)
  · intro cfg st sig now rng h
    by_cases hrun : st.is_running = false
    · unfold sim_execute_arbitrage at h
      rw [if_pos hrun] at h
      simp at h
    · by_cases hce : sim_can_execute_trade cfg st sig = false
      · unfold sim_execute_arbitrage at h
        rw [if_neg hrun, if_pos hce] at h
        simp at h
      · unfold sim_can_execute_trade at hce
        by_cases hmin : sig.profit_percent < cfg.min_profit_threshold
        · rw [if_pos hmin] at hce
          exact absurd rfl hce
        · refine ⟨not_lt.mp hmin, ?_⟩
          rw [if_neg hmin] at hce
          cases hb : decide (0 < sim_calculate_trade_size cfg st sig) with
          | false => exact absurd hb hce
          | true => exact of_decide_eq_true hb

/-- C3 counterexample: a concrete running simulator with its concurrency
slot full, a 100 percent drawdown and a signal 999 seconds old still
accepts and initiates the trade, and the live gate accepts when the
drawdown exactly equals its cap. -/
theorem c3_counterexample :
    (sim_execute_arbitrage cfgW stC3 sigW 1000 [1, 1]).2.1 = true ∧
    riskC3.max_concurrent_trades ≤ stC3.active_trades.length ∧
    riskC3.max_drawdown_percent ≤ stC3.current_drawdown ∧
    cfgW.max_spread_age_seconds < 1000 - sigW.timestamp ∧
    live_accepts_signal true 0 cfgW riskC3 balC3 riskC3.max_drawdown_percent sigW 1 = true := by
  decide

/-- C3 witness: the live gate refuses a signal when the concurrency cap
is reached. -/
theorem c3_witness :
    live_accepts_signal true 1 cfgW riskC3 balC3 0 sigW 1 = false :=
  c3_amended_executor_refusals.1 true 1 cfgW riskC3 balC3 0 sigW 1 (by decide)

/-- C4. Evaluation of the embedded balance pipeline at the failing
inputs: after a full buy fill under 0.1 percent slippage the locked
quote balance is negative, and after a 70 percent partial fill of both
legs the trade completes while 30 USDT and 0.3 BTC stay locked forever,
so locked amounts neither stay nonnegative nor return to zero. -/
theorem c4_locked_balance_divergence :
    (get_balance stC4_fill1.balances "binance" "USDT").locked < 0 ∧
    stC4b_done.active_trades = [] ∧
    (get_balance stC4b_done.balances "binance" "USDT").locked = 30 ∧
    (get_balance stC4b_done.balances "bybit" "BTC").locked = 3/10 := by
  decide

/-- C5 amended. The simulator records exactly the spec formula: realized
profit equals sell fills times sell average minus buy fills times buy
average minus the recorded fees, which are the taker charges on both
notionals. The live executor records (sell average minus buy average)
times the buy filled quantity with no fee term, which matches the spec
formula only when the realized fees are zero and the two legs filled
equally. -/
theorem c5_amended_realized_profit :
    (∀ (st : SimState) (trade : SimulatedTrade) (bo so : SimulatedOrder) (now : ℚ),
        trade.buy_order = some bo → trade.sell_order = some so →
        (complete_trade st trade now).2.actual_profit =
          spec_realized_profit bo.filled_quantity (bo.average_price.getD 0)
            so.filled_quantity (so.average_price.getD 0)
            ((complete_trade st trade now).2.fees_paid) ∧
        (complete_trade st trade now).2.fees_paid =
          bo.filled_quantity * (bo.average_price.getD 0)
              * sim_taker_fee trade.signal.buy_exchange
            + so.filled_quantity * (so.average_price.getD 0)
              * sim_taker_fee trade.signal.sell_exchange) ∧
    (∀ (bo so : Order) (pb ps : ℚ),
        bo.average_price = some pb → so.average_price = some ps →
        pb ≠ 0 → ps ≠ 0 → so.filled_quantity = bo.filled_quantity →
        live_completed_profit bo so =
          spec_realized_profit bo.filled_quantity pb so.filled_quantity ps 0) := by
  constructor
  · intro st trade bo so now hb hs
    unfold complete_trade
    simp only [hb, hs]
    constructor
    · unfold spec_realized_profit
      ring
    · ring
  · intro bo so pb ps hb hs hpb hps hq
    unfold live_completed_profit py_or_price truthy_price spec_realized_profit
    rw [hb, hs]
    simp [hpb, hps]
    rw [hq]
    ring

/-- C5 counterexample: with both legs fully filled at averages 100 and
101 and a venue taker fee of 0.1 percent on each leg, the live recorded
profit differs from the spec formula by the whole fee amount, 0.201,
far above the 1e-6 tolerance. -/
theorem c5_counterexample :
    live_completed_profit boC5 soC5
        - spec_realized_profit boC5.filled_quantity (boC5.average_price.getD 0)
            soC5.filled_quantity (soC5.average_price.getD 0) feesC5 = 201/1000 ∧
    (1 : ℚ)/1000000 < 201/1000 := by
  decide

/-- Balances never change during order placement. -/
theorem place_simulated_order_balances (s : SimState) (e sy : String) (sd : OrderSide)
    (ot : OrderType) (q p n u : ℚ) :
    (place_simulated_order s e sy sd ot q p n u).1.balances = s.balances := by
  unfold place_simulated_order
  split
  · rfl
  · rfl

/-- C7 amended. When a placement draw rejects either leg of an accepted
signal, execute_arbitrage returns False and the balances are unchanged,
because reservation only happens after both placements; the order map is
not restored, which the counterexample shows. -/
theorem c7_amended_rejection (cfg : ArbitrageConfig) (st : SimState) (sig : ArbitrageSignal)
    (now : ℚ) (rng : List ℚ)
    (hrun : st.is_running = true)
    (hce : sim_can_execute_trade cfg st sig = true)
    (hrej : should_reject_order st (next_draw rng).1 = true ∨
            should_reject_order st (next_draw (next_draw rng).2).1 = true) :
    (sim_execute_arbitrage cfg st sig now rng).2.1 = false ∧
    (sim_execute_arbitrage cfg st sig now rng).1.balances = st.balances := by
  have hsize : 0 < sim_calculate_trade_size cfg st sig := by
    unfold sim_can_execute_trade at hce
    by_cases hmin : sig.profit_percent < cfg.min_profit_threshold
    · rw [if_pos hmin] at hce; cases hce
    · rw [if_neg hmin] at hce; exact of_decide_eq_true hce
  unfold sim_execute_arbitrage
  rw [if_neg (by simp [hrun]), if_neg (by simp [hce])]
  simp only
  have hts : sim_calculate_trade_size cfg { st with trade_counter := st.trade_counter + 1 } sig
      = sim_calculate_trade_size cfg st sig := rfl
  rw [hts, if_neg (not_le.mpr hsize)]
  by_cases h1 : should_reject_order st (next_draw rng).1 = true
  · have e1 : place_simulated_order { st with trade_counter := st.trade_counter + 1 }
        sig.buy_exchange sig.symbol OrderSide.BUY OrderType.MARKET
        (sim_calculate_trade_size cfg st sig) sig.buy_price now (next_draw rng).1
        = ({ st with trade_counter := st.trade_counter + 1 }, none) := by
      unfold place_simulated_order
      rw [if_pos (show should_reject_order { st with trade_counter := st.trade_counter + 1 }
        (next_draw rng).1 = true from h1)]
    rw [e1]
    exact ⟨rfl, (place_simulated_order_balances _ _ _ _ _ _ _ _ _).trans rfl⟩
  · have h2 : should_reject_order st (next_draw (next_draw rng).2).1 = true :=
      hrej.resolve_left h1
    have e1 : place_simulated_order { st with trade_counter := st.trade_counter + 1 }
        sig.buy_exchange sig.symbol OrderSide.BUY OrderType.MARKET
        (sim_calculate_trade_size cfg st sig) sig.buy_price now (next_draw rng).1
        = ({ { st with trade_counter := st.trade_counter + 1 } with
              orders := ({ st with trade_counter := st.trade_counter + 1 }).orders
                ++ [mk_sim_order { st with trade_counter := st.trade_counter + 1 }
                      sig.buy_exchange sig.symbol OrderSide.BUY OrderType.MARKET
                      (sim_calculate_trade_size cfg st sig) sig.buy_price now],
              order_seq := ({ st with trade_counter := st.trade_counter + 1 }).order_seq + 1 },
            some (mk_sim_order { st with trade_counter := st.trade_counter + 1 }
              sig.buy_exchange sig.symbol OrderSide.BUY OrderType.MARKET
              (sim_calculate_trade_size cfg st sig) sig.buy_price now)) := by
      unfold place_simulated_order
      rw [if_neg (show ¬ should_reject_order { st with trade_counter := st.trade_counter + 1 }
        (next_draw rng).1 = true from h1)]
    rw [e1]
    have e2 : place_simulated_order
        ({ { st with trade_counter := st.trade_counter + 1 } with
            orders := ({ st with trade_counter := st.trade_counter + 1 }).orders
              ++ [mk_sim_order { st with trade_counter := st.trade_counter + 1 }
                    sig.buy_exchange sig.symbol OrderSide.BUY OrderType.MARKET
                    (sim_calculate_trade_size cfg st sig) sig.buy_price now],
            order_seq := ({ st with trade_counter := st.trade_counter + 1 }).order_seq + 1 })
        sig.sell_exchange sig.symbol OrderSide.SELL OrderType.MARKET
        (sim_calculate_trade_size cfg st sig) sig.sell_price now
        (next_draw (next_draw rng).2).1
        = ({ { st with trade_counter := st.trade_counter + 1 } with
            orders := ({ st with trade_counter := st.trade_counter + 1 }).orders
              ++ [mk_sim_order { st with trade_counter := st.trade_counter + 1 }
                    sig.buy_exchange sig.symbol OrderSide.BUY OrderType.MARKET
                    (sim_calculate_trade_size cfg st sig) sig.buy_price now],
            order_seq := ({ st with trade_counter := st.trade_counter + 1 }).order_seq + 1 },
           none) := by
      unfold place_simulated_order
      split
      · rfl
      · rename_i hno
        exact absurd h2 hno
    rw [e2]
    exact ⟨rfl, rfl⟩

/-- C7 witness: a rejected buy leg makes execute_arbitrage return False
with the balances intact. -/
theorem c7_witness :
    (sim_execute_arbitrage cfgW stC4 sigW 1 [0, 1]).2.1 = false ∧
    (sim_execute_arbitrage cfgW stC4 sigW 1 [0, 1]).1.balances = stC4.balances :=
  c7_amended_rejection cfgW stC4 sigW 1 [0, 1] (by decide) (by decide)
    (Or.inl (by decide))

/-- C7 counterexample: when the buy leg is accepted and the sell leg is
rejected, the call returns False with balances unchanged, but the placed
buy order remains in the simulator order map, so the set of pending
orders differs from before the call. -/
theorem c7_counterexample :
    (sim_execute_arbitrage cfgW stC4 sigW 1 [1, 0]).2.1 = false ∧
    (sim_execute_arbitrage cfgW stC4 sigW 1 [1, 0]).1.balances = stC4.balances ∧
    (sim_execute_arbitrage cfgW stC4 sigW 1 [1, 0]).1.orders ≠ stC4.orders := by
  decide

/-- Membership in the cancel requests of one trade cancellation. -/
theorem cancel_trade_mem (t : ActiveTrade) (now : ℚ) (c : CancelRequest) :
    c ∈ (cancel_trade t now).2 ↔ stop_cancels_leg t c := by
  unfold cancel_trade stop_cancels_leg
  rcases hbo : t.buy_order with _ | o1 <;> rcases hso : t.sell_order with _ | o2 <;>
    simp only [List.mem_append] <;>
    constructor
  · rintro (h | h) <;> simp at h
  · rintro (⟨o, ho, _⟩ | ⟨o, ho, _⟩) <;> cases ho
  · rintro (h | h)
    · simp at h
    · split at h
      · rename_i hst
        rw [List.mem_singleton] at h
        exact Or.inr ⟨o2, rfl, hst, h⟩
      · simp at h
  · rintro (⟨o, ho, _⟩ | ⟨o, ho, hst, hc⟩)
    · cases ho
    · cases ho
      right
      rw [if_pos hst]
      rw [List.mem_singleton]
      exact hc
  · rintro (h | h)
    · split at h
      · rename_i hst
        rw [List.mem_singleton] at h
        exact Or.inl ⟨o1, rfl, hst, h⟩
      · simp at h
    · simp at h
  · rintro (⟨o, ho, hst, hc⟩ | ⟨o, ho, _⟩)
    · cases ho
      left
      rw [if_pos hst, List.mem_singleton]
      exact hc
    · cases ho
  · rintro (h | h)
    · split at h
      · rename_i hst
        rw [List.mem_singleton] at h
        exact Or.inl ⟨o1, rfl, hst, h⟩
      · simp at h
    · split at h
      · rename_i hst
        rw [List.mem_singleton] at h
        exact Or.inr ⟨o2, rfl, hst, h⟩
      · simp at h
  · rintro (⟨o, ho, hst, hc⟩ | ⟨o, ho, hst, hc⟩)
    · cases ho
      left
      rw [if_pos hst, List.mem_singleton]
      exact hc
    · cases ho
      right
      rw [if_pos hst, List.mem_singleton]
      exact hc

/-- C9 amended. Stopping the live executor cancels every active trade:
a cancel request is issued exactly for each placed leg still in NEW
status, and every active trade is marked CANCELLED; orders past NEW are
left alone. -/
theorem c9_amended_stop_cancels (trades : List ActiveTrade) (now : ℚ) :
    (∀ c : CancelRequest,
        c ∈ (live_stop trades now).2 ↔ ∃ t ∈ trades, stop_cancels_leg t c) ∧
    (∀ t ∈ (live_stop trades now).1, t.status = TradeStatus.CANCELLED) := by
  induction trades with
  | nil => simp [live_stop]
  | cons t rest ih =>
    constructor
    · intro c
      constructor
      · intro h
        simp only [live_stop] at h
        rcases List.mem_append.mp h with h | h
        · exact ⟨t, List.mem_cons_self _ _, (cancel_trade_mem t now c).mp h⟩
        · obtain ⟨t', ht', hd⟩ := (ih.1 c).mp h
          exact ⟨t', List.mem_cons_of_mem _ ht', hd⟩
      · rintro ⟨t', ht', hd⟩
        simp only [live_stop]
        rcases List.mem_cons.mp ht' with rfl | ht'
        · exact List.mem_append.mpr (Or.inl ((cancel_trade_mem t' now c).mpr hd))
        · exact List.mem_append.mpr (Or.inr ((ih.1 c).mpr ⟨t', ht', hd⟩))
    · intro t' ht'
      simp only [live_stop] at ht'
      rcases List.mem_cons.mp ht' with rfl | ht'
      · rfl
      · exact ih.2 t' ht'

/-- C9 counterexample: stopping with one active trade whose buy leg is
a placed NEW order issues exactly one cancel request for it, so
in-flight orders are auto-cancelled on shutdown. -/
theorem c9_counterexample :
    (live_stop [tradeC9] 1).2 =
      [{ exchange := "binance", order_id := "o1", symbol := "BTCUSDT" }] ∧
    (live_stop [tradeC9] 1).2 ≠ [] := by
  decide

/-- C10. In the reconnection loop, the nth consecutive reconnection
attempt is preceded by a delay of exactly min(1s times 2 to the (n-1),
60s), attempts never exceed the retry cap, and with the source cap of 10
a run of failures past the cap produces exactly the ten backoff delays
1, 2, 4, 8, 16, 32, 60, 60, 60, 60 and then declares the stream
permanently dead, consuming nothing further. -/
theorem c10_reconnect_backoff :
    (∀ (max_retries : ℕ) (script : List WsOutcome) (rc : ℕ),
        ∀ p ∈ (run_reconnect max_retries script rc).1,
          p.2 = min (1 * 2 ^ (p.1 - 1)) 60 ∧ p.1 ≤ max_retries) ∧
    run_reconnect 10
        (WsOutcome.session_abnormal :: List.replicate 10 WsOutcome.connect_error) 0
      = ([(1, 1), (2, 2), (3, 4), (4, 8), (5, 16), (6, 32), (7, 60), (8, 60), (9, 60),
          (10, 60)], true) := by
  constructor
  · intro mr script
    induction script with
    | nil => intro rc p hp; simp [run_reconnect] at hp
    | cons o rest ih =>
      intro rc p hp
      cases o with
      | session_clean => simp [run_reconnect] at hp
      | session_abnormal =>
        simp only [run_reconnect] at hp
        split at hp
        · simp at hp
        · rename_i hle
          rcases List.mem_cons.mp hp with rfl | hp
          · exact ⟨rfl, by omega⟩
          · exact ih (0 + 1) p hp
      | connect_error =>
        simp only [run_reconnect] at hp
        split at hp
        · simp at hp
        · rename_i hle
          rcases List.mem_cons.mp hp with rfl | hp
          · exact ⟨rfl, by omega⟩
          · exact ih (rc + 1) p hp
  · decide

/-- Witness for C10 at a concrete input: after one abnormal closure and
one failed reconnect, the two recorded attempts carry delays 1 and 2. -/
theorem c10_witness :
    ∃ r, r = run_reconnect 10 [WsOutcome.session_abnormal, WsOutcome.connect_error] 0 ∧
      ∀ p ∈ r.1, p.2 = min (1 * 2 ^ (p.1 - 1)) 60 ∧ p.1 ≤ 10 :=
  ⟨_, rfl, c10_reconnect_backoff.1 10
    [WsOutcome.session_abnormal, WsOutcome.connect_error] 0⟩

/-- Any run of the shipped replay loop that returns at all was given no
record and handed back its state untouched. -/
theorem process_records_shipped_ok (records : List TickerRecord)
    (fst : FullStrategyState) (sim : SimState) (rng : List ℚ)
    (r : FullStrategyState × SimState × List ℚ)
    (h : process_records_shipped records fst sim rng = Except.ok r) :
    records = [] ∧ r = (fst, sim, rng) := by
  cases records with
  | nil =>
    simp only [process_records_shipped, Except.ok.injEq] at h
    exact ⟨rfl, h.symm⟩
  | cons rec rest =>
    simp [process_records_shipped, on_ticker_update_shipped] at h

/-- C8: the shipped backtester cannot produce a trade sequence at all.
At the two-quote history every run aborts at the first replayed record
with the TypeError of the single-argument strategy call of
backtester.py line 241, whatever random stream the simulator would
have consumed; and in general a run of the shipped backtester that
returns at all replayed no record: it reports no signal and leaves the
simulator order book, active trades and trade count exactly as seeded.
No random draw is ever consumed, and the trade-producing runs the
claim compares never occur. -/
theorem c8_backtester_typeerror :
    (∀ rng : List ℚ,
        run_backtest_shipped cfgW (init_sim_state cfgW) dataC8 rng =
          Except.error
            "TypeError: _on_ticker_update missing 1 required positional argument exchange_name") ∧
    (∀ (cfg : ArbitrageConfig) (sim0 : SimState)
        (hd : List (String × List TickerRecord)) (rng : List ℚ)
        (res : SimState × List ArbitrageSignal),
        run_backtest_shipped cfg sim0 hd rng = Except.ok res →
        res.2 = [] ∧ res.1.orders = sim0.orders ∧
        res.1.active_trades = sim0.active_trades ∧
        res.1.total_trades = sim0.total_trades) := by
  constructor
  · intro rng
    rfl
  · intro cfg sim0 hd rng res h
    simp only [run_backtest_shipped] at h
    split at h
    · exact Except.noConfusion h
    · split at h
      · exact Except.noConfusion h
      · rename_i r heq
        obtain ⟨-, hr⟩ := process_records_shipped_ok _ _ _ _ _ heq
        injection h with h
        subst h
        subst hr
        exact ⟨rfl, rfl, rfl, rfl⟩

end MainTheorems

end Arbot
